import Mathlib

/-!
Verification of the resumable batch-collection engine of
`blockchain-data-analyzer` against its natural-language specification.

The definitions below are a shallow embedding of the TypeScript sources:
`src/application/services/BlockchainService.ts` (window loop, pagination,
retry), `src/infrastructure/persistence/FileSystemStorage.ts` (persisted
`StorageState` and its update functions), `src/utils` `RateLimiter`, and
`src/infrastructure/api/etherscan/EtherscanClient.ts` (`makeRequest`).
Asynchronous side effects are modelled by explicit state passing; wall-clock
sleeps are recorded as a list of requested delays; JavaScript numbers holding
block heights and counts are modelled as `Nat`.
-/

deriving instance DecidableEq for Except

namespace BDA

/-- Model of JavaScript `String.prototype.includes`: `strIncludes s pat`
is true when `pat` occurs as a contiguous substring of `s`. -/
def strIncludes (s pat : String) : Bool :=
  s.toList.tails.any (fun t => pat.toList.isPrefixOf t)

/-- A thrown JavaScript error, as far as the engine inspects it:
`error instanceof EtherscanError` and `error.message`. -/
structure JsError where
  isEtherscanError : Bool
  message : String
deriving DecidableEq

/-- An item fetched from the provider; the engine only reads `blockNumber`
(`Transaction` / `TokenTransfer` in `src/core/entities`). -/
structure Tx where
  blockNumber : Nat
  hash : String
deriving DecidableEq

-- Constants of `BlockchainService` (BlockchainService.ts lines 21-25).

def MAX_RECORDS_PER_CALL : Nat := 100

def BLOCK_RANGE : Nat := 50000

def DELAY_BETWEEN_CALLS : Nat := 250

def MAX_RETRIES : Nat := 3

def RETRY_DELAY : Nat := 10000

/-! ### `BlockchainService.retryOperation` (BlockchainService.ts lines 36-61)

The wrapped operation is modelled as a function from the 1-based attempt
number to that invocation's outcome.  The result records what is returned or
thrown, how many times the operation was invoked, and the sleeps requested
between attempts. -/

/-- What `retryOperation` can throw: either it rethrows the underlying error
of the last attempt (line 57) or it raises the
`Failed after N attempts` error placed after the loop (line 60). -/
inductive RetryErr where
  | thrown (e : JsError)
  | exhausted (n : Nat) (description : String)
deriving DecidableEq

structure RetryOut (α : Type) where
  result : Except RetryErr α
  calls : Nat
  delays : List Nat
deriving DecidableEq

/-- The transient-error disjunct of line 45-49: retry when the error is not
an `EtherscanError`, or its message mentions a timeout or a rate limit. -/
def isTransientErr (e : JsError) : Bool :=
  !e.isEtherscanError || strIncludes e.message "timeout" ||
    strIncludes e.message "rate limit"

/-- `shouldRetry` of BlockchainService.ts lines 45-49. -/
def shouldRetryErr (isLastAttempt : Bool) (e : JsError) : Bool :=
  !isLastAttempt && isTransientErr e

/-- The `for (let attempt = 1; attempt <= MAX_RETRIES; attempt++)` loop;
`fuel` counts the iterations the loop may still perform, so the base case is
the fall-through to line 60. -/
def retryGo (op : Nat → Except JsError α) (description : String) :
    Nat → Nat → RetryOut α
  | _, 0 => ⟨.error (.exhausted MAX_RETRIES description), 0, []⟩
  | attempt, fuel + 1 =>
    match op attempt with
    | .ok v => ⟨.ok v, 1, []⟩
    | .error e =>
      let isLastAttempt := attempt == MAX_RETRIES
      if shouldRetryErr isLastAttempt e then
        let delayTime := RETRY_DELAY * attempt
        let rest := retryGo op description (attempt + 1) fuel
        ⟨rest.result, rest.calls + 1, delayTime :: rest.delays⟩
      else ⟨.error (.thrown e), 1, []⟩

/-- `BlockchainService.retryOperation`. -/
def retryOperation (op : Nat → Except JsError α) (description : String) :
    RetryOut α :=
  retryGo op description 1 MAX_RETRIES

/-! ### The window schedule of `processBatchWithType`
(BlockchainService.ts lines 75-76 and 121)

`windows start endB` is the sequence of `(currentStart, currentEnd)` pairs
the `while (currentStart <= endBlock)` loop steps through when no window is
repeated: `currentEnd = min(currentStart + BLOCK_RANGE - 1, endBlock)` and
the next `currentStart` is `currentEnd + 1`.  The recursion is fuelled by
`(endB + 1 - start) / BLOCK_RANGE + 1`, an upper bound on the number of
windows. -/

def windowsGo : Nat → Nat → Nat → List (Nat × Nat)
  | 0, _, _ => []
  | fuel + 1, currentStart, endBlock =>
    if currentStart ≤ endBlock then
      let currentEnd := min (currentStart + BLOCK_RANGE - 1) endBlock
      (currentStart, currentEnd) :: windowsGo fuel (currentEnd + 1) endBlock
    else []

def windows (startBlock endBlock : Nat) : List (Nat × Nat) :=
  windowsGo ((endBlock + 1 - startBlock) / BLOCK_RANGE + 1) startBlock endBlock

/-! ### The persisted `StorageState`
(`src/core/interfaces/IDataStorage.ts`, `FileSystemStorage.ts`)

The TS `transactionTypes` record is flattened into three `TypeCursor`
fields; the optional `events` block keeps its optionality.  The ISO
timestamp strings written from `new Date().toISOString()` are threaded as an
explicit `now : String` argument. -/

structure TypeCursor where
  lastBlock : Nat
  count : Nat
  lastProcessedTimestamp : String
deriving DecidableEq

structure ContractEventState where
  lastBlock : Nat
  eventCounts : List (String × Nat)
deriving DecidableEq

structure EventsState where
  lastBlock : Nat
  count : Nat
  lastProcessedTimestamp : String
  contractAddresses : List (String × ContractEventState)
deriving DecidableEq

structure StorageState where
  lastProcessedBlock : Nat
  lastProcessedTimestamp : String
  totalTransactions : Nat
  normal : TypeCursor
  internal : TypeCursor
  tokenTransfers : TypeCursor
  events : Option EventsState
deriving DecidableEq

/-- The keys of `StorageState.transactionTypes`. -/
inductive TxKind where
  | normal
  | internal
  | tokenTransfers
deriving DecidableEq

def StorageState.typeCursor (s : StorageState) : TxKind → TypeCursor
  | .normal => s.normal
  | .internal => s.internal
  | .tokenTransfers => s.tokenTransfers

def StorageState.setTypeCursor (s : StorageState) : TxKind → TypeCursor → StorageState
  | .normal, c => { s with normal := c }
  | .internal, c => { s with internal := c }
  | .tokenTransfers, c => { s with tokenTransfers := c }

/-- `FileSystemStorage.updateState` (and the identical field updates of
`updateTransactionState` / `updateTokenTransferState`): the given type's
cursor is pushed to `max(old, lastBlock)`, its count and the total are
incremented, and the entity-level `lastProcessedBlock` is pushed to
`max(old, lastBlock)`. -/
def updateState (s : StorageState) (t : TxKind) (lastBlock addedCount : Nat)
    (now : String) : StorageState :=
  let c := s.typeCursor t
  let c2 : TypeCursor :=
    { lastBlock := max c.lastBlock lastBlock
      count := c.count + addedCount
      lastProcessedTimestamp := now }
  { s.setTypeCursor t c2 with
    totalTransactions := s.totalTransactions + addedCount
    lastProcessedBlock := max s.lastProcessedBlock lastBlock
    lastProcessedTimestamp := now }

/-- `FileSystemStorage.initializeState` (the zero-valued initial state,
including a zero event block). -/
def initialState (now : String) : StorageState :=
  { lastProcessedBlock := 0
    lastProcessedTimestamp := now
    totalTransactions := 0
    normal := ⟨0, 0, now⟩
    internal := ⟨0, 0, now⟩
    tokenTransfers := ⟨0, 0, now⟩
    events := some ⟨0, 0, now, []⟩ }

/-- A contract event as far as the state bookkeeping reads it
(`EventLog` from `src/core/types`). -/
structure EventLog where
  blockNumber : Nat
  eventName : String
deriving DecidableEq

/-- Model of `Math.max(...xs)` over a non-empty list of naturals. -/
def listMax (l : List Nat) : Nat := l.foldr max 0

/-- Replace-or-insert in an association list (model of updating one key of
a TS `Record`). -/
def assocSet (k : String) (v : α) : List (String × α) → List (String × α)
  | [] => [(k, v)]
  | (k2, v2) :: rest =>
    if k2 = k then (k, v) :: rest else (k2, v2) :: assocSet k v rest

def assocGet (k : String) : List (String × α) → Option α
  | [] => none
  | (k2, v2) :: rest => if k2 = k then some v2 else assocGet k rest

/-- `event.eventName || 'unknown'` (JS truthiness: the empty string is
falsy). -/
def eventKey (e : EventLog) : String :=
  if e.eventName = "" then "unknown" else e.eventName

/-- `FileSystemStorage.updateEventState` (FileSystemStorage.ts lines
317-359): initializes the optional `events` block and the per-contract
entry if missing, bumps per-event-name counts, pushes the contract-level
and events-level `lastBlock` to the batch maximum — and leaves
`lastProcessedBlock` untouched. -/
def updateEventState (s : StorageState) (contractAddress : String)
    (events : List EventLog) (now : String) : StorageState :=
  let ev0 : EventsState := s.events.getD ⟨0, 0, now, []⟩
  let cs0 : ContractEventState :=
    (assocGet contractAddress ev0.contractAddresses).getD ⟨0, []⟩
  let lastBlock := listMax (events.map (·.blockNumber))
  let counts :=
    events.foldl
      (fun acc e =>
        assocSet (eventKey e) ((assocGet (eventKey e) acc).getD 0 + 1) acc)
      cs0.eventCounts
  let cs2 : ContractEventState :=
    { lastBlock := max cs0.lastBlock lastBlock, eventCounts := counts }
  let ev2 : EventsState :=
    { lastBlock := max ev0.lastBlock lastBlock
      count := ev0.count + events.length
      lastProcessedTimestamp := now
      contractAddresses := assocSet contractAddress cs2 ev0.contractAddresses }
  { s with events := some ev2 }

/-! ### `FileSystemStorage.saveTransactions` / `saveTokenTransfers`
(FileSystemStorage.ts lines 97-156 and 188-237)

A save is modelled as a function of the current persisted state returning
the updated state together with the records appended to the CSV file, in
the order they are written.  `saveTransactions` first sorts the batch by
`Number(blockNumber)` ascending (`transactions.sort(...)`, line 111) —
modelled with a stable insertion sort, as JS `Array.prototype.sort` is
stable — and then advances the state of the given type to the batch's
maximum block.  `saveTokenTransfers` writes the batch unsorted. -/

def byBlockLE (a b : Tx) : Prop := a.blockNumber ≤ b.blockNumber

instance : DecidableRel byBlockLE := fun _ _ => Nat.decLe _ _

instance : IsTotal Tx byBlockLE := ⟨fun _ _ => Nat.le_total _ _⟩

instance : IsTrans Tx byBlockLE := ⟨fun _ _ _ => Nat.le_trans⟩

def sortByBlock (txs : List Tx) : List Tx := List.insertionSort byBlockLE txs

structure SaveResult where
  state : StorageState
  written : List Tx
deriving DecidableEq

def saveTransactions (s : StorageState) (txs : List Tx) (t : TxKind)
    (now : String) : SaveResult :=
  if txs.isEmpty then ⟨s, []⟩
  else
    let sorted := sortByBlock txs
    let lastBlock := listMax (sorted.map (·.blockNumber))
    ⟨updateState s t lastBlock txs.length now, sorted⟩

def saveTokenTransfers (s : StorageState) (transfers : List Tx)
    (now : String) : SaveResult :=
  if transfers.isEmpty then ⟨s, []⟩
  else
    let lastBlock := listMax (transfers.map (·.blockNumber))
    ⟨updateState s .tokenTransfers lastBlock transfers.length now, transfers⟩

/-! ### `BlockchainService.processBatchWithType`
(BlockchainService.ts lines 63-125)

The provider is a function `fetch start end page attempt` giving the
outcome of the `attempt`-th invocation of `fetchFn(start, end, page)`
inside `retryOperation`; the sink is a fallible state transformer over an
abstract persisted state `σ`.  The inner `while (hasMoreData)` loop and the
outer `while (currentStart <= endBlock)` loop are fuelled: the inner loop
because the provider may keep answering full pages, the outer loop because
the rate-limit catch branch executes `continue` without advancing
`currentStart` (line 112) and so may repeat a window forever. -/

inductive PageOutcome where
  | drained
  | threw (e : RetryErr)
  | outOfFuel
deriving DecidableEq

structure PageOut (σ : Type) where
  store : σ
  fetchCalls : Nat
  delays : List Nat
  savedPages : List (List Tx)
  outcome : PageOutcome
deriving DecidableEq

/-- The inner pagination loop of `processBatchWithType` (lines 83-104):
fetch a page through `retryOperation`; an empty page ends the window with
nothing saved; otherwise the page is saved immediately; a short page
(`items.length < MAX_RECORDS_PER_CALL`) ends the window; a full page
advances `page` after the 250 ms inter-call delay. -/
def drainPages (fetch : Nat → Nat → Nat → Nat → Except JsError (List Tx))
    (save : σ → List Tx → Except JsError σ)
    (currentStart currentEnd : Nat) (description : String) :
    Nat → Nat → σ → PageOut σ
  | _, 0, st => ⟨st, 0, [], [], .outOfFuel⟩
  | page, fuel + 1, st =>
    let r := retryOperation (fun attempt => fetch currentStart currentEnd page attempt)
      description
    match r.result with
    | .error e => ⟨st, r.calls, r.delays, [], .threw e⟩
    | .ok items =>
      if items.length = 0 then ⟨st, r.calls, r.delays, [], .drained⟩
      else
        match save st items with
        | .error e => ⟨st, r.calls, r.delays, [], .threw (.thrown e)⟩
        | .ok st2 =>
          if items.length < MAX_RECORDS_PER_CALL then
            ⟨st2, r.calls, r.delays, [items], .drained⟩
          else
            let rest := drainPages fetch save currentStart currentEnd description
              (page + 1) fuel st2
            ⟨rest.store, r.calls + rest.fetchCalls,
              r.delays ++ DELAY_BETWEEN_CALLS :: rest.delays,
              items :: rest.savedPages, rest.outcome⟩

inductive Outcome where
  | completed
  | threw (e : RetryErr)
  | outOfFuel
deriving DecidableEq

structure Trace where
  fetchCalls : Nat
  delays : List Nat
  windowsVisited : List (Nat × Nat)
  savedPages : List (List Tx)
deriving DecidableEq

structure EngineOut (σ : Type) where
  store : σ
  trace : Trace
  outcome : Outcome
deriving DecidableEq

/-- The outer window loop of `processBatchWithType` (lines 75-122),
including the catch block (lines 105-119): a thrown `EtherscanError`
whose message mentions `No transactions found` is swallowed and the loop
moves to the next window; one mentioning `Max rate limit reached` sleeps a
fixed 5000 ms and retries the same window (`continue` skips the
`currentStart = currentEnd + 1` step); every other error propagates.
`pageFuel` bounds the pages attempted per window. -/
def processWindows (fetch : Nat → Nat → Nat → Nat → Except JsError (List Tx))
    (save : σ → List Tx → Except JsError σ)
    (endBlock pageFuel : Nat) (description : String) :
    Nat → Nat → σ → EngineOut σ
  | currentStart, fuel, st =>
    if currentStart ≤ endBlock then
      match fuel with
      | 0 => ⟨st, ⟨0, [], [], []⟩, .outOfFuel⟩
      | fuel + 1 =>
        let currentEnd := min (currentStart + BLOCK_RANGE - 1) endBlock
        let inner := drainPages fetch save currentStart currentEnd description 1 pageFuel st
        match inner.outcome with
        | .outOfFuel =>
          ⟨inner.store,
            ⟨inner.fetchCalls, inner.delays, [(currentStart, currentEnd)],
              inner.savedPages⟩, .outOfFuel⟩
        | .drained =>
          let rest := processWindows fetch save endBlock pageFuel description
            (currentEnd + 1) fuel inner.store
          ⟨rest.store,
            ⟨inner.fetchCalls + rest.trace.fetchCalls,
              inner.delays ++ rest.trace.delays,
              (currentStart, currentEnd) :: rest.trace.windowsVisited,
              inner.savedPages ++ rest.trace.savedPages⟩, rest.outcome⟩
        | .threw e =>
          match e with
          | .thrown je =>
            if je.isEtherscanError then
              if strIncludes je.message "No transactions found" then
                let rest := processWindows fetch save endBlock pageFuel description
                  (currentEnd + 1) fuel inner.store
                ⟨rest.store,
                  ⟨inner.fetchCalls + rest.trace.fetchCalls,
                    inner.delays ++ rest.trace.delays,
                    (currentStart, currentEnd) :: rest.trace.windowsVisited,
                    inner.savedPages ++ rest.trace.savedPages⟩, rest.outcome⟩
              else if strIncludes je.message "Max rate limit reached" then
                let rest := processWindows fetch save endBlock pageFuel description
                  currentStart fuel inner.store
                ⟨rest.store,
                  ⟨inner.fetchCalls + rest.trace.fetchCalls,
                    inner.delays ++ 5000 :: rest.trace.delays,
                    (currentStart, currentEnd) :: rest.trace.windowsVisited,
                    inner.savedPages ++ rest.trace.savedPages⟩, rest.outcome⟩
              else
                ⟨inner.store,
                  ⟨inner.fetchCalls, inner.delays, [(currentStart, currentEnd)],
                    inner.savedPages⟩, .threw e⟩
            else
              ⟨inner.store,
                ⟨inner.fetchCalls, inner.delays, [(currentStart, currentEnd)],
                  inner.savedPages⟩, .threw e⟩
          | .exhausted _ _ =>
            ⟨inner.store,
              ⟨inner.fetchCalls, inner.delays, [(currentStart, currentEnd)],
                inner.savedPages⟩, .threw e⟩
    else ⟨st, ⟨0, [], [], []⟩, .completed⟩

/-- The sink `processBatchWithType` is given for normal and internal
transactions: `(items) => this.storage.saveTransactions(name, items, t)`
(BlockchainService.ts line 171/192).  It never fails in the model. -/
def saveTxFn (t : TxKind) (now : String) :
    StorageState → List Tx → Except JsError StorageState :=
  fun s items => .ok (saveTransactions s items t now).state

/-- The token-transfer sink (line 214). -/
def saveTokenFn (now : String) :
    StorageState → List Tx → Except JsError StorageState :=
  fun s items => .ok (saveTokenTransfers s items now).state

/-- A provider with no data in the requested ranges. -/
def emptyFetch : Nat → Nat → Nat → Nat → Except JsError (List Tx) :=
  fun _ _ _ _ => .ok []

/-! ### `BlockchainService.analyzeOrganization`
(BlockchainService.ts lines 127-228)

The per-type resume points (lines 159-161, 180-182, 202-204) apply JS
truthiness: the stored cursor is used only when `resume` is set, a state
was loaded, and the stored `lastBlock` is nonzero; otherwise
`options.startBlock || 0`. -/

def resumeStart (resume : Bool) (state : Option StorageState)
    (stored : StorageState → Nat) (optStartBlock : Option Nat) : Nat :=
  match resume, state with
  | true, some st => if stored st ≠ 0 then stored st + 1 else optStartBlock.getD 0
  | _, _ => optStartBlock.getD 0

/-- `analyzeOrganization`, restricted to the persisted-state effects the
claims are about: load the previous state when `resume` is set,
ensure a state exists (`saveOrganization` → `initializeState` keeps an
existing one), then run `processBatchWithType` for normal transactions and,
when requested, internal transactions and token transfers, each from its
own resume point, stopping at the first propagated error.
`currentBlock` stands for `getCurrentBlock()` used when `options.endBlock`
is absent. -/
def analyzeOrganization
    (fetchNormal fetchInternal fetchToken : Nat → Nat → Nat → Nat → Except JsError (List Tx))
    (includeInternal includeToken : Bool)
    (stored : Option StorageState) (resume : Bool)
    (optStartBlock optEndBlock : Option Nat) (currentBlock : Nat)
    (now : String) (pageFuel fuel : Nat) : EngineOut StorageState :=
  let state : Option StorageState := if resume then stored else none
  let st0 := stored.getD (initialState now)
  let endBlock := optEndBlock.getD currentBlock
  let startNormal := resumeStart resume state (fun s => s.normal.lastBlock) optStartBlock
  let r1 := processWindows fetchNormal (saveTxFn .normal now) endBlock pageFuel
    "normal transactions" startNormal fuel st0
  match r1.outcome with
  | .completed =>
    if includeInternal then
      let startInternal := resumeStart resume state (fun s => s.internal.lastBlock) optStartBlock
      let r2 := processWindows fetchInternal (saveTxFn .internal now) endBlock pageFuel
        "internal transactions" startInternal fuel r1.store
      match r2.outcome with
      | .completed =>
        if includeToken then
          let startToken := resumeStart resume state (fun s => s.tokenTransfers.lastBlock) optStartBlock
          let r3 := processWindows fetchToken (saveTokenFn now) endBlock pageFuel
            "token transfers" startToken fuel r2.store
          ⟨r3.store,
            ⟨r1.trace.fetchCalls + r2.trace.fetchCalls + r3.trace.fetchCalls,
              r1.trace.delays ++ r2.trace.delays ++ r3.trace.delays,
              r1.trace.windowsVisited ++ r2.trace.windowsVisited ++ r3.trace.windowsVisited,
              r1.trace.savedPages ++ r2.trace.savedPages ++ r3.trace.savedPages⟩,
            r3.outcome⟩
        else
          ⟨r2.store,
            ⟨r1.trace.fetchCalls + r2.trace.fetchCalls,
              r1.trace.delays ++ r2.trace.delays,
              r1.trace.windowsVisited ++ r2.trace.windowsVisited,
              r1.trace.savedPages ++ r2.trace.savedPages⟩, r2.outcome⟩
      | _ =>
        ⟨r2.store,
          ⟨r1.trace.fetchCalls + r2.trace.fetchCalls,
            r1.trace.delays ++ r2.trace.delays,
            r1.trace.windowsVisited ++ r2.trace.windowsVisited,
            r1.trace.savedPages ++ r2.trace.savedPages⟩, r2.outcome⟩
    else if includeToken then
      let startToken := resumeStart resume state (fun s => s.tokenTransfers.lastBlock) optStartBlock
      let r3 := processWindows fetchToken (saveTokenFn now) endBlock pageFuel
        "token transfers" startToken fuel r1.store
      ⟨r3.store,
        ⟨r1.trace.fetchCalls + r3.trace.fetchCalls,
          r1.trace.delays ++ r3.trace.delays,
          r1.trace.windowsVisited ++ r3.trace.windowsVisited,
          r1.trace.savedPages ++ r3.trace.savedPages⟩, r3.outcome⟩
    else r1
  | _ => r1

/-! ### `EtherscanClient.makeRequest`
(EtherscanClient.ts lines 80-147)

One HTTP exchange is abstracted as an `ApiResponse`; the recursive retry on
rate limits and connection errors passes `retryCount + 1`, so responses are
indexed by `retryCount`.  Constants: `MAX_RETRIES = 3`,
`INITIAL_RETRY_DELAY = 1000`, retry delay `INITIAL_RETRY_DELAY * 2^retryCount`. -/

inductive ApiResponse where
  | payload (items : List Tx)
  | errStatus (errorMessage : String)
  | netError (code : String) (message : String)

def ES_MAX_RETRIES : Nat := 3

def INITIAL_RETRY_DELAY : Nat := 1000

structure ReqOut where
  result : Except JsError (List Tx)
  requests : Nat
  delays : List Nat
deriving DecidableEq

/-- The body of `makeRequest`; `fuel` bounds the recursion (the code bounds
it by `retryCount < MAX_RETRIES`, so `ES_MAX_RETRIES + 1` is always
enough).  A `status === '0'` response whose message mentions
`No transactions found` is returned as a successful empty result (lines
93-98); `NOTOK` / `Max rate limit reached` and `ECONNRESET` / `ETIMEDOUT`
retry with exponential delay; anything else becomes an `EtherscanError`. -/
def makeRequestGo (resp : Nat → ApiResponse) : Nat → Nat → ReqOut
  | _, 0 => ⟨.error ⟨true, "model out of fuel"⟩, 0, []⟩
  | retryCount, fuel + 1 =>
    match resp retryCount with
    | .payload items => ⟨.ok items, 1, []⟩
    | .errStatus errorMessage =>
      if strIncludes errorMessage "No transactions found" then ⟨.ok [], 1, []⟩
      else if (errorMessage = "NOTOK" ∨ strIncludes errorMessage "Max rate limit reached")
          ∧ retryCount < ES_MAX_RETRIES then
        let delay := INITIAL_RETRY_DELAY * 2 ^ retryCount
        let rest := makeRequestGo resp (retryCount + 1) fuel
        ⟨rest.result, rest.requests + 1, delay :: rest.delays⟩
      else ⟨.error ⟨true, errorMessage⟩, 1, []⟩
    | .netError code message =>
      if (code = "ECONNRESET" ∨ code = "ETIMEDOUT") ∧ retryCount < ES_MAX_RETRIES then
        let delay := INITIAL_RETRY_DELAY * 2 ^ retryCount
        let rest := makeRequestGo resp (retryCount + 1) fuel
        ⟨rest.result, rest.requests + 1, delay :: rest.delays⟩
      else ⟨.error ⟨true, "Network error: " ++ message⟩, 1, []⟩

def makeRequest (resp : Nat → ApiResponse) : ReqOut :=
  makeRequestGo resp 0 (ES_MAX_RETRIES + 1)

/-! ### `RateLimiter.processQueue` (RateLimiter.ts lines 25-42)

Time is a logical clock in milliseconds.  The queue is the list of the
pending calls' service durations; `processQueue` is given the current time
and the stored `lastRequestTime`, and returns the time at which each queued
call is released.  `timeToWait = Math.max(0, lastRequestTime +
timeWindow/requestsPerSecond - now)` is the truncated subtraction
`(lastRequestTime + interval) - now` on `Nat`; the call is released after
exactly that wait and `lastRequestTime` is set to the release instant
before the call runs. -/

def interCallInterval (requestsPerSecond timeWindow : Nat) : Nat :=
  timeWindow / requestsPerSecond

def processQueue (interval : Nat) : Nat → Nat → List Nat → List Nat
  | _, _, [] => []
  | now, lastRequestTime, d :: ds =>
    let timeToWait := (lastRequestTime + interval) - now
    let release := now + timeToWait
    release :: processQueue interval (release + d) release ds

/-! ### Derived notions used by the statements below -/

/-- The per-type cursor value after a sequence of page saves: each saved
page pushes the cursor to the maximum of its block numbers. -/
def cursorFold (b : Nat) (pages : List (List Tx)) : Nat :=
  pages.foldl (fun acc pg => max acc (listMax (pg.map (·.blockNumber)))) b

/-- The invariant the state-update arithmetic actually maintains:
`lastProcessedBlock` is the maximum of the three transaction-type cursors
(the event cursor is not included). -/
def inv3 (s : StorageState) : Prop :=
  s.lastProcessedBlock =
    max s.normal.lastBlock (max s.internal.lastBlock s.tokenTransfers.lastBlock)

/-- One update of the persisted state: a transaction/token-transfer save
(`updateState`) or a contract-event save (`updateEventState`). -/
inductive StateOp where
  | txSave (t : TxKind) (lastBlock addedCount : Nat) (now : String)
  | eventSave (contractAddress : String) (events : List EventLog) (now : String)

def applyOp (s : StorageState) : StateOp → StorageState
  | .txSave t b c now => updateState s t b c now
  | .eventSave a es now => updateEventState s a es now

def applyOps (s : StorageState) (ops : List StateOp) : StorageState :=
  ops.foldl applyOp s

/-! ### Concrete scenario inputs used by counterexamples and witnesses -/

/-- A transient (non-`EtherscanError`) failure. -/
def transientNetErr : JsError := ⟨false, "socket hang up"⟩

/-- A full page of 100 items, all in block 10 (far from any window end). -/
def c2txs : List Tx := List.replicate 100 ⟨10, "0xaa"⟩

/-- Page 1 of every window succeeds with a full page; page 2 always fails
with a non-retryable `EtherscanError`. -/
def c2fetch : Nat → Nat → Nat → Nat → Except JsError (List Tx) :=
  fun _ _ page _ => if page = 1 then .ok c2txs else .error ⟨true, "invalid response"⟩

def c2run : EngineOut StorageState :=
  processWindows c2fetch (saveTxFn .normal "t0") 60000 3 "normal transactions" 0 3
    (initialState "t0")

/-- A provider holding exactly one transaction, at block 5. -/
def oneTxFetch : Nat → Nat → Nat → Nat → Except JsError (List Tx) :=
  fun s _ page _ => if s ≤ 5 ∧ page = 1 then .ok [⟨5, "0xabc"⟩] else .ok []

/-- First collection run: blocks 0-10, no resume. -/
def c4run1 : EngineOut StorageState :=
  analyzeOrganization oneTxFetch oneTxFetch oneTxFetch false false none false
    (some 0) (some 10) 0 "t0" 3 3

/-- Second run: resume from the completed first run with the same end block. -/
def c4run2 : EngineOut StorageState :=
  analyzeOrganization oneTxFetch oneTxFetch oneTxFetch false false
    (some c4run1.store) true (some 0) (some 10) 0 "t1" 3 3

/-- A full page of 100 items, all in block 10. -/
def c5txs : List Tx := List.replicate 100 ⟨10, "0xbb"⟩

/-- The first window's page 1 is a full page, every later call is empty. -/
def c5fetch : Nat → Nat → Nat → Nat → Except JsError (List Tx) :=
  fun s _ page _ => if s = 0 ∧ page = 1 then .ok c5txs else .ok []

def c5run : EngineOut StorageState :=
  processWindows c5fetch (saveTxFn .normal "t0") 60000 3 "normal transactions" 0 3
    (initialState "t0")

/-- A run over a single window in which the provider has no data at all. -/
def c6run : EngineOut StorageState :=
  processWindows emptyFetch (saveTxFn .normal "t0") 10 3 "normal transactions" 0 3
    (initialState "t0")

/-- An explicit rate-limit response. -/
def c7err : JsError := ⟨true, "Max rate limit reached"⟩

def c7fetch : Nat → Nat → Nat → Nat → Except JsError (List Tx) :=
  fun _ _ _ _ => .error c7err

def c7run : EngineOut StorageState :=
  processWindows c7fetch (saveTxFn .normal "t0") 10 3 "normal transactions" 0 1
    (initialState "t0")

/-- A fresh state after one contract-event save at block 7. -/
def c8state : StorageState :=
  updateEventState (initialState "t0") "0xc" [⟨7, "Transfer"⟩] "t1"

/-! ## Helper lemmas -/

theorem windowsGo_nil_of_gt (fuel s e : Nat) (h : e < s) :
    windowsGo fuel s e = [] := by
  cases fuel with
  | zero => rfl
  | succ n => simp [windowsGo, Nat.not_le.mpr h]

theorem windowsGo_congr_fuel (e : Nat) :
    ∀ fuel fuel' s, e + 1 - s ≤ fuel * BLOCK_RANGE → e + 1 - s ≤ fuel' * BLOCK_RANGE →
      windowsGo fuel s e = windowsGo fuel' s e := by
  intro fuel
  induction fuel with
  | zero =>
    intro fuel' s h _
    have hs : e < s := by simp only [BLOCK_RANGE] at h; omega
    rw [windowsGo_nil_of_gt _ _ _ hs, windowsGo_nil_of_gt _ _ _ hs]
  | succ n ih =>
    intro fuel' s h h'
    by_cases hs : s ≤ e
    · cases fuel' with
      | zero => simp only [BLOCK_RANGE] at h'; omega
      | succ m =>
        simp only [windowsGo, if_pos hs]
        refine congrArg _ (ih m _ ?_ ?_) <;>
          simp only [BLOCK_RANGE] at h h' ⊢ <;> omega
    · rw [windowsGo_nil_of_gt _ _ _ (by omega), windowsGo_nil_of_gt _ _ _ (by omega)]

theorem windows_fuel_enough (s e : Nat) :
    e + 1 - s ≤ ((e + 1 - s) / BLOCK_RANGE + 1) * BLOCK_RANGE := by
  have h1 := Nat.div_add_mod (e + 1 - s) BLOCK_RANGE
  have h2 : (e + 1 - s) % BLOCK_RANGE < BLOCK_RANGE :=
    Nat.mod_lt _ (by decide)
  simp only [BLOCK_RANGE] at h1 h2 ⊢
  omega

/-- One unfolding of the window schedule. -/
theorem windows_cons (s e : Nat) (h : s ≤ e) :
    windows s e =
      (s, min (s + BLOCK_RANGE - 1) e) :: windows (min (s + BLOCK_RANGE - 1) e + 1) e := by
  unfold windows
  simp only [windowsGo, if_pos h]
  refine congrArg _ (windowsGo_congr_fuel e _ _ _ ?_ (windows_fuel_enough _ _))
  have h1 := Nat.div_add_mod (e + 1 - s) BLOCK_RANGE
  have h2 : (e + 1 - s) % BLOCK_RANGE < BLOCK_RANGE :=
    Nat.mod_lt _ (by decide)
  simp only [BLOCK_RANGE] at h1 h2 ⊢
  omega

theorem windows_nil_of_gt (s e : Nat) (h : e < s) : windows s e = [] := by
  unfold windows
  exact windowsGo_nil_of_gt _ _ _ h

/-- The structural properties of the window schedule, proved along the
length of the covered interval. -/
theorem windows_spec :
    ∀ n s e, e + 1 - s ≤ n → s ≤ e →
      windows s e ≠ [] ∧
      (windows s e).head?.map Prod.fst = some s ∧
      ((windows s e).getLast?.map Prod.snd) = some e ∧
      (∀ w ∈ windows s e, s ≤ w.1 ∧ w.1 ≤ w.2 ∧ w.2 ≤ e ∧ w.2 + 1 ≤ w.1 + BLOCK_RANGE) ∧
      List.Chain' (fun a b => b.1 = a.2 + 1) (windows s e) ∧
      (∀ b, s ≤ b → b ≤ e → ∃ w ∈ windows s e, w.1 ≤ b ∧ b ≤ w.2) := by
  intro n
  induction n with
  | zero => intro s e h hs; omega
  | succ n ih =>
    intro s e h hs
    have hbr : (1 : Nat) ≤ BLOCK_RANGE := by decide
    rw [windows_cons s e hs]
    have hsm : s ≤ min (s + BLOCK_RANGE - 1) e := by omega
    have hme : min (s + BLOCK_RANGE - 1) e ≤ e := by omega
    have hmbr : min (s + BLOCK_RANGE - 1) e + 1 ≤ s + BLOCK_RANGE := by omega
    by_cases hend : min (s + BLOCK_RANGE - 1) e = e
    · rw [hend] at hsm hmbr ⊢
      rw [windows_nil_of_gt (e + 1) e (by omega)]
      refine ⟨by simp, by simp, by simp, ?_, ?_, ?_⟩
      · intro w hw
        simp only [List.mem_singleton] at hw
        subst hw
        exact ⟨le_refl _, hsm, le_refl _, hmbr⟩
      · simp
      · intro b hb1 hb2
        exact ⟨(s, e), List.mem_singleton.mpr rfl, hb1, hb2⟩
    · have hlt : min (s + BLOCK_RANGE - 1) e < e := lt_of_le_of_ne hme hend
      have hmeas : e + 1 - (min (s + BLOCK_RANGE - 1) e + 1) ≤ n := by omega
      obtain ⟨hne, hhead, hlast, hbounds, hchain, hcover⟩ :=
        ih (min (s + BLOCK_RANGE - 1) e + 1) e hmeas (by omega)
      obtain ⟨w0, tl, htl⟩ := List.exists_cons_of_ne_nil hne
      refine ⟨by simp, by simp, ?_, ?_, ?_, ?_⟩
      · rw [htl, List.getLast?_cons_cons, ← htl]
        exact hlast
      · intro w hw
        rcases List.mem_cons.mp hw with hw | hw
        · subst hw
          exact ⟨le_refl _, hsm, hme, hmbr⟩
        · obtain ⟨h1, h2, h3, h4⟩ := hbounds w hw
          exact ⟨le_trans (by omega) h1, h2, h3, h4⟩
      · rw [htl]
        rw [htl] at hchain
        refine List.chain'_cons.mpr ⟨?_, hchain⟩
        have hh0 : (windows (min (s + BLOCK_RANGE - 1) e + 1) e).head? = some w0 := by
          rw [htl]; rfl
        rw [hh0] at hhead
        simpa using hhead
      · intro b hb1 hb2
        by_cases hbm : b ≤ min (s + BLOCK_RANGE - 1) e
        · exact ⟨(s, min (s + BLOCK_RANGE - 1) e), List.mem_cons_self _ _, hb1, hbm⟩
        · obtain ⟨w, hw, hwb⟩ := hcover b (by omega) hb2
          exact ⟨w, List.mem_cons_of_mem _ hw, hwb⟩

/-- A first-attempt success returns immediately, with no delay. -/
theorem retryOperation_ok {α : Type} (op : Nat → Except JsError α) (d : String)
    (v : α) (h : op 1 = .ok v) :
    retryOperation op d = ⟨.ok v, 1, []⟩ := by
  simp [retryOperation, MAX_RETRIES, retryGo, h]

/-- A window whose first page is empty is drained with one fetch call and
no state change. -/
theorem drainPages_empty {σ : Type}
    (fetch : Nat → Nat → Nat → Nat → Except JsError (List Tx))
    (save : σ → List Tx → Except JsError σ) (cs ce : Nat) (d : String)
    (fuel : Nat) (st : σ) (h : fetch cs ce 1 1 = .ok []) (hf : 1 ≤ fuel) :
    drainPages fetch save cs ce d 1 fuel st = ⟨st, 1, [], [], .drained⟩ := by
  obtain ⟨f, rfl⟩ : ∃ f, fuel = f + 1 := ⟨fuel - 1, by omega⟩
  simp [drainPages, retryOperation_ok _ d _ h]

/-- With a provider that answers every window's first page with no items,
the engine steps through exactly the scheduled windows, makes one fetch
call per window, saves nothing and leaves the state untouched. -/
theorem processWindows_empty {σ : Type}
    (fetch : Nat → Nat → Nat → Nat → Except JsError (List Tx))
    (save : σ → List Tx → Except JsError σ) (e pageFuel : Nat) (d : String)
    (hfetch : ∀ cs ce, fetch cs ce 1 1 = .ok []) (hpf : 1 ≤ pageFuel) :
    ∀ fuel s (st : σ), (windows s e).length ≤ fuel →
      processWindows fetch save e pageFuel d s fuel st =
        ⟨st, ⟨(windows s e).length, [], windows s e, []⟩, .completed⟩ := by
  intro fuel
  induction fuel with
  | zero =>
    intro s st hlen
    by_cases hs : s ≤ e
    · rw [windows_cons s e hs] at hlen
      simp at hlen
    · rw [windows_nil_of_gt s e (by omega)]
      simp [processWindows, Nat.not_le.mpr (by omega : e < s)]
  | succ n ih =>
    intro s st hlen
    by_cases hs : s ≤ e
    · rw [windows_cons s e hs] at hlen ⊢
      simp only [processWindows, if_pos hs,
        drainPages_empty fetch save s _ d pageFuel st (hfetch _ _) hpf]
      rw [ih _ st (by simpa using hlen)]
      simp [Nat.add_comm]
    · rw [windows_nil_of_gt s e (by omega)]
      simp [processWindows, Nat.not_le.mpr (by omega : e < s)]

/-- Every release happens at `max(now, lastRequestTime + interval)`:
exactly the wait needed to honour the interval, never more. -/
theorem processQueue_cons (interval now last d : Nat) (ds : List Nat) :
    processQueue interval now last (d :: ds) =
      max now (last + interval) ::
        processQueue interval (max now (last + interval) + d)
          (max now (last + interval)) ds := by
  have hrel : now + ((last + interval) - now) = max now (last + interval) := by omega
  simp [processQueue, hrel]

/-- Every queued call is released at least `interval` after the stored
`lastRequestTime`. -/
theorem processQueue_mem_ge (interval : Nat) :
    ∀ ds now last r, r ∈ processQueue interval now last ds →
      last + interval ≤ r := by
  intro ds
  induction ds with
  | nil => intro now last r hr; simp [processQueue] at hr
  | cons d ds ih =>
    intro now last r hr
    rw [processQueue_cons] at hr
    rcases List.mem_cons.mp hr with hr | hr
    · subst hr; exact le_max_right _ _
    · have h1 := ih _ _ _ hr
      have h2 : last + interval ≤ max now (last + interval) := le_max_right _ _
      omega

/-- Successive releases are never closer together than `interval`. -/
theorem processQueue_chain (interval : Nat) :
    ∀ ds now last,
      List.Chain' (fun a b => a + interval ≤ b) (processQueue interval now last ds) := by
  intro ds
  induction ds with
  | nil => intro now last; simp [processQueue]
  | cons d ds ih =>
    intro now last
    rw [processQueue_cons]
    refine List.chain'_cons'.mpr ⟨?_, ih _ _⟩
    intro y hy
    exact processQueue_mem_ge interval ds _ _ y (List.mem_of_mem_head? hy)

theorem listMax_perm {l l2 : List Nat} (h : l.Perm l2) : listMax l = listMax l2 := by
  induction h with
  | nil => rfl
  | cons x _ ih => simp [listMax, List.foldr] at ih ⊢; omega
  | swap x y l => simp [listMax, List.foldr]; omega
  | trans _ _ ih1 ih2 => exact ih1.trans ih2

theorem listMax_sortByBlock (txs : List Tx) :
    listMax ((sortByBlock txs).map (·.blockNumber)) = listMax (txs.map (·.blockNumber)) :=
  listMax_perm ((List.perm_insertionSort byBlockLE txs).map _)

/-- The cursor update performed by one non-empty `saveTransactions` call:
the given type's cursor is pushed to the maximum of the batch's block
numbers. -/
theorem saveTransactions_cursor (s : StorageState) (txs : List Tx) (t : TxKind)
    (now : String) (h : txs ≠ []) :
    ((saveTransactions s txs t now).state.typeCursor t).lastBlock =
      max (s.typeCursor t).lastBlock (listMax (txs.map (·.blockNumber))) := by
  have hne : txs.isEmpty = false := by
    cases txs with
    | nil => exact absurd rfl h
    | cons a l => rfl
  cases t <;>
    simp [saveTransactions, hne, updateState, StorageState.setTypeCursor,
      StorageState.typeCursor, listMax_sortByBlock]

theorem cursorFold_append (b : Nat) (l1 l2 : List (List Tx)) :
    cursorFold b (l1 ++ l2) = cursorFold (cursorFold b l1) l2 :=
  List.foldl_append _ _ _ _

theorem cursorFold_le (l : List (List Tx)) : ∀ b, b ≤ cursorFold b l := by
  induction l with
  | nil => intro b; exact le_refl _
  | cons pg l ih =>
    intro b
    have h1 : cursorFold b (pg :: l) =
        cursorFold (max b (listMax (pg.map (·.blockNumber)))) l := rfl
    rw [h1]
    exact le_trans (le_max_left _ _) (ih _)

/-- Through the pagination loop with the normal-transaction sink, the
persisted cursor is exactly the fold of the saved pages' maxima over the
initial cursor — whatever the outcome. -/
theorem drainPages_cursor
    (fetch : Nat → Nat → Nat → Nat → Except JsError (List Tx))
    (cs ce : Nat) (d now : String) :
    ∀ fuel page (st : StorageState),
      (drainPages fetch (saveTxFn .normal now) cs ce d page fuel st).store.normal.lastBlock
        = cursorFold st.normal.lastBlock
            ((drainPages fetch (saveTxFn .normal now) cs ce d page fuel st).savedPages) := by
  intro fuel
  induction fuel with
  | zero => intro page st; simp [drainPages, cursorFold]
  | succ n ih =>
    intro page st
    simp only [drainPages]
    cases hr : (retryOperation (fun attempt => fetch cs ce page attempt) d).result with
    | error e => simp [cursorFold]
    | ok items =>
      by_cases hlen : items.length = 0
      · simp [hlen, cursorFold]
      · have hne : items ≠ [] := by
          cases items with
          | nil => exact absurd rfl hlen
          | cons a l => simp
        have hcur := saveTransactions_cursor st items .normal now hne
        simp only [StorageState.typeCursor] at hcur
        by_cases hshort : items.length < MAX_RECORDS_PER_CALL
        · simp [saveTxFn, hlen, hshort, cursorFold, hcur]
        · simp only [saveTxFn, hlen, hshort, if_neg, if_false]
          simp only [ih]
          simp [cursorFold, hcur]

/-- Through the window loop with the normal-transaction sink, the persisted
cursor is the fold of all saved pages' maxima over the initial cursor. -/
theorem processWindows_cursor
    (fetch : Nat → Nat → Nat → Nat → Except JsError (List Tx))
    (e pageFuel : Nat) (d now : String) :
    ∀ fuel s (st : StorageState),
      (processWindows fetch (saveTxFn .normal now) e pageFuel d s fuel st).store.normal.lastBlock
        = cursorFold st.normal.lastBlock
            ((processWindows fetch (saveTxFn .normal now) e pageFuel d s fuel st).trace.savedPages) := by
  intro fuel
  induction fuel with
  | zero =>
    intro s st
    by_cases hs : s ≤ e <;> simp [processWindows, hs, cursorFold]
  | succ n ih =>
    intro s st
    by_cases hs : s ≤ e
    · simp only [processWindows, if_pos hs]
      have hin := drainPages_cursor fetch s (min (s + BLOCK_RANGE - 1) e) d now pageFuel 1 st
      cases ho : (drainPages fetch (saveTxFn .normal now) s (min (s + BLOCK_RANGE - 1) e) d
          1 pageFuel st).outcome with
      | outOfFuel => simpa [ho] using hin
      | drained => simp [ho, ih, cursorFold_append, hin]
      | threw ex =>
        cases ex with
        | exhausted k msg => simpa [ho] using hin
        | thrown je =>
          by_cases hje : je.isEtherscanError
          · by_cases hnf : strIncludes je.message "No transactions found"
            · simp [ho, hje, hnf, ih, cursorFold_append, hin]
            · by_cases hrl : strIncludes je.message "Max rate limit reached"
              · simp [ho, hje, hnf, hrl, ih, cursorFold_append, hin]
              · simpa [ho, hje, hnf, hrl] using hin
          · simpa [ho, hje] using hin
    · simp [processWindows, hs, cursorFold]

/-! ## Claims -/

/-- C1: for every `startBlock ≤ endBlock` and the 50000-block window size,
the windows iterated by `processBatchWithType` partition the interval
exactly — consecutive, ascending, non-overlapping, gap-free, each of
length at most `BLOCK_RANGE`, starting at `startBlock` and ending at
`endBlock`; for `startBlock > endBlock` no window is produced and the run
makes no fetch call and raises no error; the concrete scenario
`100..260000` yields the six expected windows. -/
theorem c1_windows_partition :
    (∀ s e, s ≤ e →
      windows s e ≠ [] ∧
      (windows s e).head?.map Prod.fst = some s ∧
      ((windows s e).getLast?.map Prod.snd) = some e ∧
      (∀ w ∈ windows s e, s ≤ w.1 ∧ w.1 ≤ w.2 ∧ w.2 ≤ e ∧ w.2 + 1 ≤ w.1 + BLOCK_RANGE) ∧
      List.Chain' (fun a b => b.1 = a.2 + 1) (windows s e) ∧
      (∀ b, s ≤ b → b ≤ e → ∃ w ∈ windows s e, w.1 ≤ b ∧ b ≤ w.2)) ∧
    (∀ s e, e < s → windows s e = []) ∧
    (∀ (σ : Type) (fetch : Nat → Nat → Nat → Nat → Except JsError (List Tx))
        (save : σ → List Tx → Except JsError σ) (pageFuel fuel : Nat)
        (d : String) (st : σ) (s e : Nat), e < s →
      processWindows fetch save e pageFuel d s fuel st =
        ⟨st, ⟨0, [], [], []⟩, .completed⟩) ∧
    windows 100 260000 =
      [(100, 50099), (50100, 100099), (100100, 150099), (150100, 200099),
        (200100, 250099), (250100, 260000)] := by
  refine ⟨fun s e hs => windows_spec (e + 1 - s) s e (le_refl _) hs,
    windows_nil_of_gt, ?_, by decide⟩
  intro σ fetch save pageFuel fuel d st s e h
  cases fuel <;> simp [processWindows, Nat.not_le.mpr h]

theorem c1_windows_partition_witness :
    windows 0 5 ≠ [] ∧ windows 7 5 = [] ∧
    processWindows emptyFetch (saveTxFn .normal "t") 5 1 "d" 7 1 (initialState "t") =
      ⟨initialState "t", ⟨0, [], [], []⟩, .completed⟩ :=
  ⟨(c1_windows_partition.1 0 5 (by decide)).1,
    c1_windows_partition.2.1 7 5 (by decide),
    c1_windows_partition.2.2.1 StorageState emptyFetch (saveTxFn .normal "t") 1 1
      "d" (initialState "t") 7 5 (by decide)⟩

/-- C9: calls scheduled through `RateLimiter` are released no closer
together than `timeWindow / requestsPerSecond` milliseconds (200 ms for 5
requests per second over 1000 ms); a call arriving before the interval has
elapsed since the last release is delayed exactly enough — the release
instant is `max(now, lastRequestTime + interval)` — never more. -/
theorem c9_rate_limiter_spacing :
    (∀ requestsPerSecond timeWindow now last ds,
      List.Chain' (fun a b => a + interCallInterval requestsPerSecond timeWindow ≤ b)
        (processQueue (interCallInterval requestsPerSecond timeWindow) now last ds)) ∧
    (∀ interval now last ds r, r ∈ processQueue interval now last ds →
      last + interval ≤ r) ∧
    (∀ interval now last d ds,
      processQueue interval now last (d :: ds) =
        max now (last + interval) ::
          processQueue interval (max now (last + interval) + d)
            (max now (last + interval)) ds) ∧
    interCallInterval 5 1000 = 200 := by
  exact ⟨fun rps tw now last ds => processQueue_chain _ ds now last,
    fun interval ds now last r => processQueue_mem_ge _ _ _ _ r,
    fun interval now last d ds => processQueue_cons _ _ _ _ _,
    by decide⟩

theorem c9_rate_limiter_spacing_witness :
    400 ∈ processQueue 200 0 0 [10, 10] ∧ 0 + 200 ≤ 400 :=
  ⟨by decide, c9_rate_limiter_spacing.2.1 200 0 0 [10, 10] 400 (by decide)⟩

/-- C10: `FileSystemStorage.saveTransactions` sorts the batch by
`blockNumber` before writing, so the records appended to the CSV file are
an ascending-by-block permutation of the batch. -/
theorem c10_save_transactions_sorted :
    ∀ s txs t now,
      ((saveTransactions s txs t now).written).Pairwise byBlockLE ∧
      ((saveTransactions s txs t now).written).Perm txs := by
  intro s txs t now
  unfold saveTransactions
  by_cases h : txs.isEmpty
  · rw [List.isEmpty_iff] at h
    subst h
    simp
  · simp only [h, Bool.false_eq_true, if_false]
    exact ⟨List.sorted_insertionSort byBlockLE txs,
      List.perm_insertionSort byBlockLE txs⟩

/-- C3 counterexample: an operation that always fails with a transient
error is attempted exactly 3 times, but `retryOperation` then rethrows the
last underlying error itself rather than raising the distinct
`Failed after N attempts` error, which is unreachable. -/
theorem c3_retry_counterexample :
    (retryOperation (fun _ => (Except.error transientNetErr : Except JsError (List Tx)))
        "fetch").calls = MAX_RETRIES ∧
    (retryOperation (fun _ => (Except.error transientNetErr : Except JsError (List Tx)))
        "fetch").result = .error (.thrown transientNetErr) ∧
    (retryOperation (fun _ => (Except.error transientNetErr : Except JsError (List Tx)))
        "fetch").result ≠ .error (.exhausted MAX_RETRIES "fetch") := by
  decide

/-- C3 (amended): for an operation failing with a transient error on every
invocation, `retryOperation` invokes it exactly `MAX_RETRIES = 3` times
and then rethrows the third attempt's underlying error itself; the
`Failed after N attempts` error of line 60 is never raised.  The delays
slept between attempts are `RETRY_DELAY * attempt`. -/
theorem c3_retry_exhausts_and_rethrows {α : Type}
    (op : Nat → Except JsError α) (d : String) (err : Nat → JsError)
    (hfail : ∀ i, op i = .error (err i))
    (htrans : ∀ i, isTransientErr (err i) = true) :
    (retryOperation op d).calls = MAX_RETRIES ∧
    (retryOperation op d).result = .error (.thrown (err 3)) ∧
    (retryOperation op d).delays = [RETRY_DELAY * 1, RETRY_DELAY * 2] := by
  simp [retryOperation, MAX_RETRIES, retryGo, hfail, shouldRetryErr, htrans,
    RETRY_DELAY]

theorem c3_retry_exhausts_and_rethrows_witness :
    (retryOperation (fun _ => (Except.error transientNetErr : Except JsError (List Tx)))
        "save").calls = MAX_RETRIES :=
  (c3_retry_exhausts_and_rethrows
    (fun _ => (Except.error transientNetErr : Except JsError (List Tx))) "save"
    (fun _ => transientNetErr) (fun _ => rfl)
    (fun _ => (by decide : isTransientErr transientNetErr = true))).1

set_option maxRecDepth 4000 in
/-- C2 counterexample: a window whose page 1 is saved and whose page 2
fetch fails fatally leaves the per-type cursor at block 10 — the maximum
of the partially fetched window's first page — not at the previous window
boundary (the cursor was 0 when the window started). -/
theorem c2_cursor_midwindow_counterexample :
    c2run.outcome = .threw (.thrown ⟨true, "invalid response"⟩) ∧
    c2run.trace.savedPages = [c2txs] ∧
    c2run.trace.windowsVisited = [(0, 49999)] ∧
    c2run.store.normal.lastBlock = 10 ∧
    c2run.store.normal.lastBlock ≠ 0 := by
  decide

/-- C2 (amended): the per-type cursor is advanced on every successful page
save, to the maximum of the previous cursor and the saved page's block
numbers — so after any run (including one that fails partway through a
window) the cursor equals the fold of the saved pages' maxima over the
initial cursor, and in particular it never decreases, but a mid-window
failure leaves it at the last saved page's maximum block, not at the
previous window boundary. -/
theorem c2_cursor_per_page_commit
    (fetch : Nat → Nat → Nat → Nat → Except JsError (List Tx))
    (e pageFuel : Nat) (d now : String) (s fuel : Nat) (st : StorageState) :
    (processWindows fetch (saveTxFn .normal now) e pageFuel d s fuel st).store.normal.lastBlock
      = cursorFold st.normal.lastBlock
          ((processWindows fetch (saveTxFn .normal now) e pageFuel d s fuel st).trace.savedPages) ∧
    st.normal.lastBlock ≤
      (processWindows fetch (saveTxFn .normal now) e pageFuel d s fuel st).store.normal.lastBlock := by
  refine ⟨processWindows_cursor fetch e pageFuel d now fuel s st, ?_⟩
  rw [processWindows_cursor fetch e pageFuel d now fuel s st]
  exact cursorFold_le _ _

/-- C4 counterexample: a completed run over blocks 0-10 finds its only
transaction at block 5; resuming with `resume = true` and the same end
block leaves the persisted state unchanged but performs one further fetch
call (over the residual range 6-10), not zero. -/
theorem c4_resume_counterexample :
    c4run1.outcome = .completed ∧ c4run2.outcome = .completed ∧
    c4run2.store = c4run1.store ∧
    c4run2.trace.fetchCalls = 1 ∧ c4run2.trace.fetchCalls ≠ 0 := by
  decide

/-- C4 (amended): resuming with `resume = true` and the same `endBlock`
after a completed run leaves the persisted `CollectionState` unchanged,
but re-fetches the residual range `[lastBlock + 1, endBlock]` — one fetch
call per residual window, at least one whenever `lastBlock < endBlock`,
and zero only when `lastBlock ≥ endBlock`. -/
theorem c4_resume_refetches_residual_range (st : StorageState) (e : Nat)
    (o : Option Nat) (now : String) (pageFuel fuel : Nat)
    (h0 : st.normal.lastBlock ≠ 0) (hpf : 1 ≤ pageFuel)
    (hfuel : (windows (st.normal.lastBlock + 1) e).length ≤ fuel) :
    analyzeOrganization emptyFetch emptyFetch emptyFetch false false (some st) true
        o (some e) 0 now pageFuel fuel =
      ⟨st, ⟨(windows (st.normal.lastBlock + 1) e).length, [],
        windows (st.normal.lastBlock + 1) e, []⟩, .completed⟩ ∧
    (st.normal.lastBlock < e → 1 ≤ (windows (st.normal.lastBlock + 1) e).length) ∧
    (e ≤ st.normal.lastBlock → (windows (st.normal.lastBlock + 1) e).length = 0) := by
  refine ⟨?_, ?_, ?_⟩
  · have hrun := processWindows_empty emptyFetch (saveTxFn .normal now) e pageFuel
      "normal transactions" (fun _ _ => rfl) hpf fuel (st.normal.lastBlock + 1) st hfuel
    simp [analyzeOrganization, resumeStart, h0, hrun]
  · intro hlt
    rw [windows_cons _ _ (by omega)]
    simp
  · intro hge
    rw [windows_nil_of_gt _ _ (by omega)]
    rfl

theorem c4_resume_refetches_residual_range_witness :
    analyzeOrganization emptyFetch emptyFetch emptyFetch false false
        (some (updateState (initialState "t0") .normal 5 1 "t0")) true (some 0)
        (some 10) 0 "t1" 3 3 =
      ⟨updateState (initialState "t0") .normal 5 1 "t0",
        ⟨(windows ((updateState (initialState "t0") .normal 5 1 "t0").normal.lastBlock + 1) 10).length,
          [], windows ((updateState (initialState "t0") .normal 5 1 "t0").normal.lastBlock + 1) 10,
          []⟩, .completed⟩ :=
  (c4_resume_refetches_residual_range (updateState (initialState "t0") .normal 5 1 "t0")
    10 (some 0) "t1" 3 3 (by decide) (by decide) (by decide)).1

set_option maxRecDepth 4000 in
/-- C5 counterexample: the first window's page 1 returns a full page of
100 items whose maximum block is 10 and page 2 returns no items;
pagination stops and exactly those 100 items are saved, but the cursor
advances to block 10 — the maximum saved block — not to the window's end
49999. -/
theorem c5_short_page_counterexample :
    c5run.outcome = .completed ∧
    c5run.trace.savedPages = [c5txs] ∧
    c5run.trace.windowsVisited = [(0, 49999), (50000, 60000)] ∧
    c5run.store.normal.lastBlock = 10 ∧
    c5run.store.normal.lastBlock ≠ 49999 := by
  decide

/-- C5 (amended): pagination within a window stops exactly when a page
returns fewer than `MAX_RECORDS_PER_CALL = 100` items (zero included); in
the scenario where page 1 returns exactly 100 items and page 2 returns
zero, exactly those 100 items are saved, exactly two page calls are made
for the window, and the cursor advances to the maximum block number among
the saved items (not necessarily the window's end). -/
theorem c5_short_page_terminates :
    (∀ (fetch : Nat → Nat → Nat → Nat → Except JsError (List Tx))
        (cs ce : Nat) (d now : String) (st : StorageState) (items : List Tx)
        (page fuel : Nat),
      fetch cs ce page 1 = .ok items → items.length < MAX_RECORDS_PER_CALL →
      1 ≤ fuel →
      (drainPages fetch (saveTxFn .normal now) cs ce d page fuel st).outcome = .drained ∧
      (drainPages fetch (saveTxFn .normal now) cs ce d page fuel st).fetchCalls = 1) ∧
    (∀ (fetch : Nat → Nat → Nat → Nat → Except JsError (List Tx))
        (cs ce : Nat) (d now : String) (st : StorageState) (items : List Tx)
        (fuel : Nat),
      fetch cs ce 1 1 = .ok items → items.length = MAX_RECORDS_PER_CALL →
      fetch cs ce 2 1 = .ok [] → 2 ≤ fuel →
      (drainPages fetch (saveTxFn .normal now) cs ce d 1 fuel st).outcome = .drained ∧
      (drainPages fetch (saveTxFn .normal now) cs ce d 1 fuel st).fetchCalls = 2 ∧
      (drainPages fetch (saveTxFn .normal now) cs ce d 1 fuel st).savedPages = [items] ∧
      (drainPages fetch (saveTxFn .normal now) cs ce d 1 fuel st).delays =
        [DELAY_BETWEEN_CALLS] ∧
      (drainPages fetch (saveTxFn .normal now) cs ce d 1 fuel st).store.normal.lastBlock =
        max st.normal.lastBlock (listMax (items.map (·.blockNumber)))) := by
  constructor
  · intro fetch cs ce d now st items page fuel h1 hshort hf
    obtain ⟨f, rfl⟩ : ∃ f, fuel = f + 1 := ⟨fuel - 1, by omega⟩
    by_cases hlen : items.length = 0
    · simp [drainPages, retryOperation_ok _ d _ h1, hlen]
    · simp [drainPages, retryOperation_ok _ d _ h1, hlen, saveTxFn, hshort]
  · intro fetch cs ce d now st items fuel h1 hfull h2 hf
    obtain ⟨f, rfl⟩ : ∃ f, fuel = f + 2 := ⟨fuel - 2, by omega⟩
    have hlen : ¬ items.length = 0 := by
      rw [hfull]; decide
    have hshort : ¬ items.length < MAX_RECORDS_PER_CALL := by
      rw [hfull]; decide
    have hne : items ≠ [] := by
      cases items with
      | nil => exact absurd hfull (by decide)
      | cons a l => simp
    have hcur := saveTransactions_cursor st items .normal now hne
    simp only [StorageState.typeCursor] at hcur
    simp [drainPages, retryOperation_ok _ d _ h1, retryOperation_ok _ d _ h2,
      hlen, hshort, saveTxFn, hcur]

theorem c5_short_page_terminates_witness :
    (drainPages c5fetch (saveTxFn .normal "t0") 0 49999 "d" 1 3
        (initialState "t0")).outcome = .drained ∧
    (drainPages c5fetch (saveTxFn .normal "t0") 0 49999 "d" 1 3
        (initialState "t0")).fetchCalls = 2 ∧
    (drainPages c5fetch (saveTxFn .normal "t0") 0 49999 "d" 1 3
        (initialState "t0")).savedPages = [c5txs] ∧
    (drainPages c5fetch (saveTxFn .normal "t0") 0 49999 "d" 1 3
        (initialState "t0")).delays = [DELAY_BETWEEN_CALLS] ∧
    (drainPages c5fetch (saveTxFn .normal "t0") 0 49999 "d" 1 3
        (initialState "t0")).store.normal.lastBlock =
      max (initialState "t0").normal.lastBlock (listMax (c5txs.map (·.blockNumber))) :=
  c5_short_page_terminates.2 c5fetch 0 49999 "d" "t0" (initialState "t0") c5txs 3
    rfl (by decide) rfl (by decide)

/-- C6 counterexample: a window in which the provider reports no data
completes without error and without retries, but the persisted per-type
cursor is **unchanged** (still 0), not advanced past the window's end 10:
`saveTransactions` returns early on an empty batch, so nothing is
persisted for empty windows. -/
theorem c6_cursor_unchanged_counterexample :
    c6run.outcome = .completed ∧
    c6run.trace.windowsVisited = [(0, 10)] ∧
    c6run.trace.fetchCalls = 1 ∧
    c6run.store.normal.lastBlock = 0 ∧
    ¬ 10 ≤ c6run.store.normal.lastBlock := by
  decide

/-- C6 (amended): a `status = '0'` response whose message mentions
`No transactions found` is returned by `makeRequest` as a success with
zero items — one request, no retry, no delay, no error — and the engine
then finishes the window with one fetch call, saving nothing and leaving
the persisted state (hence the per-type cursor) unchanged; the loop simply
moves on to the next window. -/
theorem c6_empty_sentinel (resp : Nat → ApiResponse) (m : String)
    (hresp : resp 0 = .errStatus m)
    (hm : strIncludes m "No transactions found" = true) :
    makeRequest resp = ⟨.ok [], 1, []⟩ ∧
    (∀ (σ : Type) (fetch : Nat → Nat → Nat → Nat → Except JsError (List Tx))
        (save : σ → List Tx → Except JsError σ) (cs ce fuel : Nat) (d : String)
        (st : σ), fetch cs ce 1 1 = .ok [] → 1 ≤ fuel →
      drainPages fetch save cs ce d 1 fuel st = ⟨st, 1, [], [], .drained⟩) := by
  constructor
  · simp [makeRequest, ES_MAX_RETRIES, makeRequestGo, hresp, hm]
  · intro σ fetch save cs ce fuel d st hfetch hf
    exact drainPages_empty fetch save cs ce d fuel st hfetch hf

theorem c6_empty_sentinel_witness :
    makeRequest (fun _ => .errStatus "No transactions found") = ⟨.ok [], 1, []⟩ ∧
    drainPages emptyFetch (saveTxFn .normal "t0") 0 10 "d" 1 3 (initialState "t0") =
      ⟨initialState "t0", 1, [], [], .drained⟩ :=
  ⟨(c6_empty_sentinel (fun _ => .errStatus "No transactions found")
      "No transactions found" rfl (by decide)).1,
    (c6_empty_sentinel (fun _ => .errStatus "No transactions found")
      "No transactions found" rfl (by decide)).2 StorageState emptyFetch
      (saveTxFn .normal "t0") 0 10 3 "d" (initialState "t0") rfl (by decide)⟩

/-- C7 counterexample: for an operation failing on every attempt, the
waits between attempts are `RETRY_DELAY * attempt` = 10 s, 20 s — linear,
not the claimed exponential `RETRY_DELAY * 2 ^ attempt` (which would make
the first wait 20 s); and the fixed wait taken on an explicit rate-limit
response is 5000 ms, which is **shorter** than the backoff waits, not
longer: a fully rate-limited window sleeps 10 s, 20 s, then 5 s. -/
theorem c7_backoff_counterexample :
    (retryOperation (fun _ => (Except.error c7err : Except JsError (List Tx)))
        "fetch").delays = [RETRY_DELAY * 1, RETRY_DELAY * 2] ∧
    RETRY_DELAY * 1 ≠ RETRY_DELAY * 2 ^ 1 ∧
    c7run.trace.delays = [10000, 20000, 5000] ∧
    5000 < RETRY_DELAY := by
  decide

/-- C7 (amended): the retry delay is **linear** in the attempt counter —
`RETRY_DELAY * attempt`, i.e. 10 s then 20 s for an always-failing
transient operation — and an explicit rate-limit error escaping the retry
loop makes the window loop sleep a fixed 5000 ms (shorter than the
backoff delays, not longer) and retry the same window. -/
theorem c7_backoff_linear (fetch : Nat → Nat → Nat → Nat → Except JsError (List Tx)) :
    (∀ {α : Type} (op : Nat → Except JsError α) (d : String) (err : Nat → JsError),
      (∀ i, op i = .error (err i)) → (∀ i, isTransientErr (err i) = true) →
      (retryOperation op d).delays = [RETRY_DELAY * 1, RETRY_DELAY * 2]) ∧
    (∀ (σ : Type) (save : σ → List Tx → Except JsError σ) (e pageFuel : Nat)
        (d : String) (s fuel : Nat) (st : σ),
      s ≤ e →
      (drainPages fetch save s (min (s + BLOCK_RANGE - 1) e) d 1 pageFuel st).outcome =
        .threw (.thrown ⟨true, "Max rate limit reached"⟩) →
      processWindows fetch save e pageFuel d s (fuel + 1) st =
        ⟨(processWindows fetch save e pageFuel d s fuel
            (drainPages fetch save s (min (s + BLOCK_RANGE - 1) e) d 1 pageFuel st).store).store,
          ⟨(drainPages fetch save s (min (s + BLOCK_RANGE - 1) e) d 1 pageFuel st).fetchCalls +
              (processWindows fetch save e pageFuel d s fuel
                (drainPages fetch save s (min (s + BLOCK_RANGE - 1) e) d 1 pageFuel st).store).trace.fetchCalls,
            (drainPages fetch save s (min (s + BLOCK_RANGE - 1) e) d 1 pageFuel st).delays ++
              5000 :: (processWindows fetch save e pageFuel d s fuel
                (drainPages fetch save s (min (s + BLOCK_RANGE - 1) e) d 1 pageFuel st).store).trace.delays,
            (s, min (s + BLOCK_RANGE - 1) e) ::
              (processWindows fetch save e pageFuel d s fuel
                (drainPages fetch save s (min (s + BLOCK_RANGE - 1) e) d 1 pageFuel st).store).trace.windowsVisited,
            (drainPages fetch save s (min (s + BLOCK_RANGE - 1) e) d 1 pageFuel st).savedPages ++
              (processWindows fetch save e pageFuel d s fuel
                (drainPages fetch save s (min (s + BLOCK_RANGE - 1) e) d 1 pageFuel st).store).trace.savedPages⟩,
          (processWindows fetch save e pageFuel d s fuel
            (drainPages fetch save s (min (s + BLOCK_RANGE - 1) e) d 1 pageFuel st).store).outcome⟩) ∧
    5000 < RETRY_DELAY := by
  refine ⟨?_, ?_, by decide⟩
  · intro α op d err hfail htrans
    simp [retryOperation, MAX_RETRIES, retryGo, hfail, shouldRetryErr, htrans,
      RETRY_DELAY]
  · intro σ save e pageFuel d s fuel st hs ho
    have h1 : strIncludes "Max rate limit reached" "No transactions found" = false := by
      decide
    have h2 : strIncludes "Max rate limit reached" "Max rate limit reached" = true := by
      decide
    simp [processWindows, if_pos hs, ho, h1, h2]

theorem c7_backoff_linear_witness :
    (retryOperation (fun _ => (Except.error transientNetErr : Except JsError (List Nat)))
        "page").delays = [RETRY_DELAY * 1, RETRY_DELAY * 2] ∧
    processWindows c7fetch (saveTxFn .normal "t0") 10 3 "normal transactions" 0 (0 + 1)
        (initialState "t0") =
      ⟨(processWindows c7fetch (saveTxFn .normal "t0") 10 3 "normal transactions" 0 0
          (drainPages c7fetch (saveTxFn .normal "t0") 0 (min (0 + BLOCK_RANGE - 1) 10)
            "normal transactions" 1 3 (initialState "t0")).store).store,
        ⟨(drainPages c7fetch (saveTxFn .normal "t0") 0 (min (0 + BLOCK_RANGE - 1) 10)
              "normal transactions" 1 3 (initialState "t0")).fetchCalls +
            (processWindows c7fetch (saveTxFn .normal "t0") 10 3 "normal transactions" 0 0
              (drainPages c7fetch (saveTxFn .normal "t0") 0 (min (0 + BLOCK_RANGE - 1) 10)
                "normal transactions" 1 3 (initialState "t0")).store).trace.fetchCalls,
          (drainPages c7fetch (saveTxFn .normal "t0") 0 (min (0 + BLOCK_RANGE - 1) 10)
              "normal transactions" 1 3 (initialState "t0")).delays ++
            5000 :: (processWindows c7fetch (saveTxFn .normal "t0") 10 3 "normal transactions" 0 0
              (drainPages c7fetch (saveTxFn .normal "t0") 0 (min (0 + BLOCK_RANGE - 1) 10)
                "normal transactions" 1 3 (initialState "t0")).store).trace.delays,
          (0, min (0 + BLOCK_RANGE - 1) 10) ::
            (processWindows c7fetch (saveTxFn .normal "t0") 10 3 "normal transactions" 0 0
              (drainPages c7fetch (saveTxFn .normal "t0") 0 (min (0 + BLOCK_RANGE - 1) 10)
                "normal transactions" 1 3 (initialState "t0")).store).trace.windowsVisited,
          (drainPages c7fetch (saveTxFn .normal "t0") 0 (min (0 + BLOCK_RANGE - 1) 10)
              "normal transactions" 1 3 (initialState "t0")).savedPages ++
            (processWindows c7fetch (saveTxFn .normal "t0") 10 3 "normal transactions" 0 0
              (drainPages c7fetch (saveTxFn .normal "t0") 0 (min (0 + BLOCK_RANGE - 1) 10)
                "normal transactions" 1 3 (initialState "t0")).store).trace.savedPages⟩,
        (processWindows c7fetch (saveTxFn .normal "t0") 10 3 "normal transactions" 0 0
          (drainPages c7fetch (saveTxFn .normal "t0") 0 (min (0 + BLOCK_RANGE - 1) 10)
            "normal transactions" 1 3 (initialState "t0")).store).outcome⟩ :=
  ⟨(c7_backoff_linear c7fetch).1
      (fun _ => (Except.error transientNetErr : Except JsError (List Nat))) "page"
      (fun _ => transientNetErr) (fun _ => rfl)
      (fun _ => (by decide : isTransientErr transientNetErr = true)),
    (c7_backoff_linear c7fetch).2.1 StorageState (saveTxFn .normal "t0") 10 3
      "normal transactions" 0 0 (initialState "t0") (by decide) (by decide)⟩

/-- C8 counterexample: after a contract-event save at block 7 on a fresh
state, `updateEventState` has raised the event cursor to 7 but left
`lastProcessedBlock` at 0, so the entity-level block is **not** the
maximum over all per-type cursors including the event cursor. -/
theorem c8_invariant_counterexample :
    c8state.lastProcessedBlock = 0 ∧
    (c8state.events.map EventsState.lastBlock).getD 0 = 7 ∧
    c8state.lastProcessedBlock ≠
      max (max c8state.normal.lastBlock
          (max c8state.internal.lastBlock c8state.tokenTransfers.lastBlock))
        ((c8state.events.map EventsState.lastBlock).getD 0) := by
  decide

theorem inv3_initialState (now : String) : inv3 (initialState now) := by
  simp [inv3, initialState]

theorem inv3_updateState (s : StorageState) (t : TxKind) (b c : Nat)
    (now : String) (h : inv3 s) : inv3 (updateState s t b c now) := by
  cases t <;>
    simp [inv3, updateState, StorageState.setTypeCursor, StorageState.typeCursor]
      at h ⊢ <;> omega

theorem inv3_updateEventState (s : StorageState) (a : String)
    (es : List EventLog) (now : String) (h : inv3 s) :
    inv3 (updateEventState s a es now) := by
  simpa [inv3, updateEventState] using h

theorem inv3_applyOps (ops : List StateOp) :
    ∀ s, inv3 s → inv3 (applyOps s ops) := by
  induction ops with
  | nil => intro s h; exact h
  | cons op ops ih =>
    intro s h
    have hstep : inv3 (applyOp s op) := by
      cases op with
      | txSave t b c now => exact inv3_updateState s t b c now h
      | eventSave a es now => exact inv3_updateEventState s a es now h
    exact ih _ hstep

/-- C8 (amended): after initialization and after every sequence of
transaction/token-transfer/event state updates, `lastProcessedBlock`
equals the maximum of the **three transaction-type** cursors; the event
cursor is excluded, because `updateEventState` never touches
`lastProcessedBlock` or the transaction-type cursors. -/
theorem c8_last_processed_is_max_of_tx_cursors :
    (∀ now ops, inv3 (applyOps (initialState now) ops)) ∧
    (∀ s a es now,
      (updateEventState s a es now).lastProcessedBlock = s.lastProcessedBlock ∧
      (updateEventState s a es now).normal = s.normal ∧
      (updateEventState s a es now).internal = s.internal ∧
      (updateEventState s a es now).tokenTransfers = s.tokenTransfers) := by
  constructor
  · intro now ops
    exact inv3_applyOps ops _ (inv3_initialState now)
  · intro s a es now
    simp [updateEventState]

end BDA
